import Mathlib

/-!
Verification of the message-transport layer of `ggez-no-re`
(`src/transport.rs`), as a shallow embedding in Lean 4.

The wire is modelled as a list of bytes (`List Nat`, each element < 256 in
practice; the arithmetic lemmas carry their own bounds).  Blocking reads on a
`TcpStream` become pure consumption of a prefix of that list; a short read
(`read_exact` hitting end of stream) is an `unexpectedEof` error.  `serde` /
`bincode` serialization is an external dependency of the repository and is
modelled by an explicit `Codec` record; the framing logic around it is
translated from the source.
-/

/-- Model of Rust `std::io::ErrorKind` (only the kinds `transport.rs` uses). -/
inductive ErrorKind where
  | unexpectedEof
  | fileTooLarge
  | invalidData
  | connectionAborted
  | wouldBlock
  deriving DecidableEq, Repr

/-- Model of `std::io::Error`: a kind plus a message. -/
structure IOError where
  kind : ErrorKind
  msg : String
  deriving DecidableEq, Repr

/-- `const MAX_PACKET_SIZE: usize = 16 * 1024 * 1024;` (transport.rs line 13). -/
def MAX_PACKET_SIZE : Nat := 16 * 1024 * 1024

/-- Little-endian byte encoding of a natural number into `k` bytes; models
`u64::to_le_bytes` (with `k = 8`), including the wrap-around of the
`as u64` cast, since only `n % 256^k` is representable. -/
def natToLe (k : Nat) (n : Nat) : List Nat :=
  match k with
  | 0 => []
  | k + 1 => n % 256 :: natToLe k (n / 256)

/-- Little-endian decoding of a byte list; models `u64::from_le_bytes`. -/
def leToNat (bs : List Nat) : Nat :=
  match bs with
  | [] => 0
  | b :: rest => b + 256 * leToNat rest

theorem natToLe_length (k n : Nat) : (natToLe k n).length = k := by
  induction k generalizing n with
  | zero => rfl
  | succ k ih => simp [natToLe, ih]

theorem leToNat_natToLe (k n : Nat) (h : n < 256 ^ k) :
    leToNat (natToLe k n) = n := by
  induction k generalizing n with
  | zero =>
    simp [pow_zero, Nat.lt_one_iff] at h
    simp [h, natToLe, leToNat]
  | succ k ih =>
    have hdiv : n / 256 < 256 ^ k := by
      rw [Nat.div_lt_iff_lt_mul (by norm_num)]
      calc n < 256 ^ (k + 1) := h
        _ = 256 ^ k * 256 := by ring
    simp [natToLe, leToNat, ih _ hdiv]
    omega

/-- The oversized-frame error built in `MessageTransporter::recv`
(`ErrorKind::FileTooLarge`, transport.rs lines 66-71); the message has the
constant `MAX_PACKET_SIZE = 16777216` already formatted in. -/
def oversizedError : IOError :=
  ⟨ErrorKind.fileTooLarge, "Message size cannot exceed 16777216 bytes"⟩

/-- A failed `read_exact` (stream ended before the requested byte count). -/
def eofError : IOError :=
  ⟨ErrorKind.unexpectedEof, "failed to fill whole buffer"⟩

/-- The byte-level part of `MessageTransporter::recv` (transport.rs lines
59-73), before `bincode::deserialize`:
read exactly 8 bytes, decode them as a little-endian `u64` length, reject a
length above `MAX_PACKET_SIZE` before reading any payload byte, otherwise
read exactly that many payload bytes.  Returns the payload buffer handed to
deserialization together with the unread remainder of the stream. -/
def recvFrame (stream : List Nat) : Except IOError (List Nat × List Nat) :=
  if stream.length < 8 then .error eofError
  else
    let len := leToNat (stream.take 8)
    let rest := stream.drop 8
    if len > MAX_PACKET_SIZE then .error oversizedError
    else if rest.length < len then .error eofError
    else .ok (rest.take len, rest.drop len)

/-- Model of a `serde` serialization format for type `M` (the repository
delegates this to the external `bincode` crate): a total encoder and a
partial decoder. -/
structure Codec (M : Type) where
  encode : M → List Nat
  decode : List Nat → Option M

/-- The deserialization-failure error of `MessageTransporter::recv`
(`ErrorKind::InvalidData`, transport.rs lines 74-75). -/
def decodeError : IOError := ⟨ErrorKind.invalidData, "bincode deserialize error"⟩

/-- `MessageTransporter::send` (transport.rs lines 47-57): serialize the
message, then write the 8-byte little-endian length prefix followed by the
payload.  The returned list is the byte sequence written to the stream;
there is no size check on this path. -/
def MessageTransporter.send {M : Type} (c : Codec M) (m : M) : List Nat :=
  natToLe 8 (c.encode m).length ++ c.encode m

/-- `MessageTransporter::recv` (transport.rs lines 59-77): the byte-level
frame read (`recvFrame`) followed by `bincode::deserialize` on the payload
buffer. -/
def MessageTransporter.recv {M : Type} (c : Codec M) (stream : List Nat) :
    Except IOError (M × List Nat) :=
  match recvFrame stream with
  | .error e => .error e
  | .ok (buf, rest) =>
    match c.decode buf with
    | some m => .ok (m, rest)
    | none => .error decodeError

/-- The envelope type of the protocol: one serializable type `M` grouping the
two disjoint message subtypes `M::ClientMessage` and `M::ServerMessage`
(the `ClientServerMessage` trait, transport.rs lines 15-18).  An
application's envelope enum is a tagged union of the two families. -/
inductive Envelope (C S : Type) where
  | clientMsg (c : C)
  | serverMsg (s : S)
  deriving DecidableEq, Repr

/-- `TryFrom<M> for M::ServerMessage`: narrowing an envelope to the
server-originated subtype, failing on the client subtype. -/
def Envelope.tryServer {C S : Type} : Envelope C S → Option S
  | .serverMsg s => some s
  | .clientMsg _ => none

/-- `TryFrom<M> for M::ClientMessage`: narrowing an envelope to the
client-originated subtype, failing on the server subtype. -/
def Envelope.tryClient {C S : Type} : Envelope C S → Option C
  | .clientMsg c => some c
  | .serverMsg _ => none

/-- The direction-violation error of `ClientsideTransport::recv`
(transport.rs lines 124-127). -/
def clientsideDirectionError : IOError :=
  ⟨ErrorKind.invalidData, "Received a clientside message from the server"⟩

/-- The direction-violation error of `ServersideTransport::recv`
(transport.rs lines 179-182). -/
def serversideDirectionError : IOError :=
  ⟨ErrorKind.invalidData, "Received a serverside message from a client"⟩

/-- `ClientsideTransport::recv` (transport.rs lines 118-130): receive one
envelope and narrow it to the server-originated subtype, failing with a
protocol-violation error when the envelope carries a client-originated
message. -/
def ClientsideTransport.recv {C S : Type} (c : Codec (Envelope C S))
    (stream : List Nat) : Except IOError (S × List Nat) :=
  match MessageTransporter.recv c stream with
  | .error e => .error e
  | .ok (m, rest) =>
    match m.tryServer with
    | some s => .ok (s, rest)
    | none => .error clientsideDirectionError

/-- `ServersideTransport::recv` (transport.rs lines 173-185): receive one
envelope and narrow it to the client-originated subtype, failing with a
protocol-violation error when the envelope carries a server-originated
message. -/
def ServersideTransport.recv {C S : Type} (c : Codec (Envelope C S))
    (stream : List Nat) : Except IOError (C × List Nat) :=
  match MessageTransporter.recv c stream with
  | .error e => .error e
  | .ok (m, rest) =>
    match m.tryClient with
    | some x => .ok (x, rest)
    | none => .error serversideDirectionError

/-!
## Handshake

`SocketAddr` values are treated as opaque identifiers; `Nat` stands in for
them.  Both handshakes (server `listener_thread`, transport.rs lines
248-272, and client `connection_thread`, lines 350-366) are modelled as the
ordered list of transport / event actions they perform for one connection
attempt, driven by the outcome of the single `SocketMessage` receive
(`none` = the received frame was not a valid `SocketMessage`). -/

/-- Opaque model of `std::net::SocketAddr`. -/
abbrev SockAddr := Nat

/-- One observable action of a handshake: a blocking receive of the peer's
`SocketMessage`, a send of a `SocketMessage` carrying a given address, or
the emission of an event into the sink (`Connect` carrying the
peer-reported own address, or `Disconnect`). -/
inductive HsAct where
  | recvAddr
  | sendAddr (a : SockAddr)
  | emitConnect (my : SockAddr)
  | emitDisconnect
  deriving DecidableEq, Repr

/-- The server's handshake for one accepted connection (transport.rs lines
248-269): send the peer's observed address `socket`, then receive the
peer's `SocketMessage`; on failure log and `continue` (no event), on
success emit the `Connect` event carrying the received address. -/
def MessageServer.handshakeTrace (socket : SockAddr)
    (recvResult : Option SockAddr) : List HsAct :=
  match recvResult with
  | none => [.sendAddr socket, .recvAddr]
  | some my => [.sendAddr socket, .recvAddr, .emitConnect my]

/-- The client's handshake after a successful connect (transport.rs lines
350-366): receive the server's `SocketMessage`; on failure log and
`continue` (no event), on success send `SocketMessage(socket)` — `socket`
being the connect-target address — then emit the `Connect` event carrying
the received address. -/
def MessageClient.handshakeTrace (socket : SockAddr)
    (recvResult : Option SockAddr) : List HsAct :=
  match recvResult with
  | none => [.recvAddr]
  | some my => [.recvAddr, .sendAddr socket, .emitConnect my]

/-- The events a handshake trace emits into the event sink (`Connect` or
`Disconnect`; the failure branches of both handshakes skip every emit). -/
def emittedEvents (trace : List HsAct) : List HsAct :=
  trace.filter fun a =>
    match a with
    | .emitConnect _ => true
    | .emitDisconnect => true
    | _ => false

/-- The address carried by the first `sendAddr` action of a trace, if any. -/
def firstSentAddr (trace : List HsAct) : Option SockAddr :=
  trace.findSome? fun a =>
    match a with
    | .sendAddr x => some x
    | _ => none

/-!
## Per-connection event delivery

`NetworkEvent` (transport.rs lines 20-28); the `transport` handle and
`my_socket_addr` carried by `Connect` are abstracted away, the message
payload is kept.

The event sink is the `std::sync::mpsc` sender: a `send` succeeds until the
receiving end is dropped, and fails forever afterwards.  It is modelled by
a budget: `none` means the consumer never goes away, `some n` means exactly
`n` more sends succeed before the consumer is gone.

A connection's successful receives are a finite list `msgs` (the messages
decoded before the first failing `recv`); the reader loop runs until that
first `recv` error. -/

/-- The event union delivered to application code (transport.rs lines 20-28). -/
inductive NetworkEvent (A : Type) where
  | connect
  | message (m : A)
  | disconnect
  deriving DecidableEq, Repr

/-- Whether the next send into the event sink succeeds. -/
def sinkAccepts : Option Nat → Bool
  | none => true
  | some n => decide (0 < n)

/-- The sink budget after one successful send. -/
def sinkAfter : Option Nat → Option Nat
  | none => none
  | some n => some (n - 1)

/-- Whether a task ran to completion or panicked (a Rust `unwrap` on a
failed channel send). -/
inductive TaskEnd where
  | returned
  | panicked
  deriving DecidableEq, Repr

/-- The reader loop shared verbatim by `MessageServer::connection_thread`
(transport.rs lines 293-302) and the forwarding loop of
`MessageClient::connection_thread` (lines 368-377): for each decoded
message, send a `Message` event; a failed event send is mapped to a
`ConnectionAborted` error, which exits the loop like a `recv` error.  After
the loop ends, one `Disconnect` event is attempted with its result
discarded (`let _ = ...`) — if the consumer is gone it is not delivered.
Returns the list of events actually delivered into the sink. -/
def readerLoopEvents {A : Type} (budget : Option Nat) (msgs : List A) :
    List (NetworkEvent A) :=
  match msgs with
  | [] => if sinkAccepts budget then [.disconnect] else []
  | m :: rest =>
    if sinkAccepts budget then .message m :: readerLoopEvents (sinkAfter budget) rest
    else []

/-- One server connection after a successful handshake (transport.rs lines
258-272 and 283-303): the listener thread sends the `Connect` event with
`.unwrap()` — panicking the listener if the consumer is gone — then spawns
the reader loop.  Returns the delivered events and how the delivering task
ended. -/
def MessageServer.handleConnection {A : Type} (budget : Option Nat)
    (msgs : List A) : List (NetworkEvent A) × TaskEnd :=
  if sinkAccepts budget then
    (.connect :: readerLoopEvents (sinkAfter budget) msgs, .returned)
  else ([], .panicked)

/-- One client connection after a successful handshake (transport.rs lines
358-377): the connection thread sends the `Connect` event with `.unwrap()`
— panicking itself if the consumer is gone — then runs the forwarding
loop. -/
def MessageClient.handleConnection {A : Type} (budget : Option Nat)
    (msgs : List A) : List (NetworkEvent A) × TaskEnd :=
  if sinkAccepts budget then
    (.connect :: readerLoopEvents (sinkAfter budget) msgs, .returned)
  else ([], .panicked)

/-!
## The client's outer reconnect loop

`MessageClient::connection_thread` (transport.rs lines 337-380): while the
deathswitch has not fired, attempt a blocking connect; on failure the error
is swallowed by the `try` block and the loop immediately re-enters its next
iteration — the client code contains no sleep call (the only
`thread::sleep` in transport.rs is the server listener's 100 ms poll
interval, line 246). -/

/-- Observable actions of the client's outer loop.  `sleep` is the action a
backoff delay would perform, and `connectFailLog` the action a log call on
the failed-connect path would perform; the client loop produces neither —
the connect error exits the `try` block via `?` and is discarded by the
`let _` binding (transport.rs lines 346-347) without any log call. -/
inductive ClientAct where
  | checkStop
  | connectAttempt (n : Nat)
  | connectFailLog (n : Nat)
  | connected (n : Nat)
  | sleep (ms : Nat)
  deriving DecidableEq, Repr

/-- The client's outer loop, fuel-bounded, starting at attempt index `k`:
check the deathswitch (`stopAt`), then attempt connect number `k`
(`connectOk`); a failed connect's error is silently discarded and the next
iteration begins immediately. -/
def MessageClient.connectLoop (fuel k : Nat) (stopAt connectOk : Nat → Bool) :
    List ClientAct :=
  match fuel with
  | 0 => []
  | fuel + 1 =>
    if stopAt k then [.checkStop]
    else
      .checkStop :: .connectAttempt k ::
        (if connectOk k then [.connected k]
         else MessageClient.connectLoop fuel (k + 1) stopAt connectOk)

/-!
## Shutdown

`impl Drop for MessageServer` (transport.rs lines 306-311) and
`impl Drop for MessageClient` (lines 383-388): send `()` on the
`thread_kill` channel, then `take()` the owned `JoinHandle` and `join()`
it.  In the threading model a `joinTask t` action completes only once task
`t` has exited, so the joined tasks of a finished drop trace are exactly
the tasks known to have exited when the drop returns. -/

/-- Actions of a drop implementation. -/
inductive DropAct where
  | sendStop
  | joinTask (t : Nat)
  deriving DecidableEq, Repr

/-- The fields of `MessageServer` (transport.rs lines 205-208) relevant to
drop: the owned listener task (a `JoinHandle` id; `Option` because `Drop`
takes it out). -/
structure MessageServer.State where
  listener_thread : Option Nat
  deriving DecidableEq, Repr

/-- The fields of `MessageClient` (transport.rs lines 313-316) relevant to
drop: the owned connection task. -/
structure MessageClient.State where
  connection_thread : Option Nat
  deriving DecidableEq, Repr

/-- The background tasks a `MessageServer` handle owns. -/
def MessageServer.State.ownedTasks (h : MessageServer.State) : List Nat :=
  h.listener_thread.toList

/-- The background tasks a `MessageClient` handle owns. -/
def MessageClient.State.ownedTasks (h : MessageClient.State) : List Nat :=
  h.connection_thread.toList

/-- `Drop for MessageServer`: signal the deathswitch, then join the taken
listener handle. -/
def MessageServer.dropTrace (h : MessageServer.State) : List DropAct :=
  .sendStop :: (match h.listener_thread with
    | some t => [.joinTask t]
    | none => [])

/-- `Drop for MessageClient`: signal the deathswitch, then join the taken
connection handle. -/
def MessageClient.dropTrace (h : MessageClient.State) : List DropAct :=
  .sendStop :: (match h.connection_thread with
    | some t => [.joinTask t]
    | none => [])

/-- The tasks that have provably exited once a drop trace has completed
(every `join` in it has returned). -/
def exitedTasks (acts : List DropAct) : List Nat :=
  acts.filterMap fun a =>
    match a with
    | .joinTask t => some t
    | _ => none

/-!
## Concrete codecs used to exercise the theorems

These stand in for a `bincode`-serializable application message type; the
transport is generic in them. -/

/-- A one-byte serialization of `Bool`, total-roundtrip (as `bincode`'s is
for `bool`). -/
def boolCodec : Codec Bool where
  encode b := [if b then 1 else 0]
  decode l :=
    match l with
    | [0] => some false
    | [1] => some true
    | _ => none

/-- A one-byte serialization of a two-variant envelope, tag 0 for the
client subtype and tag 1 for the server subtype. -/
def unitEnvCodec : Codec (Envelope Unit Unit) where
  encode m :=
    match m with
    | .clientMsg _ => [0]
    | .serverMsg _ => [1]
  decode l :=
    match l with
    | [0] => some (.clientMsg ())
    | [1] => some (.serverMsg ())
    | _ => none

/-- A codec whose every encoding is one byte larger than the frame cap;
used to exercise the absence of a size check on the send path. -/
def oversizedCodec : Codec Unit where
  encode _ := List.replicate (MAX_PACKET_SIZE + 1) 0
  decode _ := some ()

/-!
## Helper lemmas
-/

theorem recvFrame_ok (lenB payload rest : List Nat) (h8 : lenB.length = 8)
    (hmax : leToNat lenB ≤ MAX_PACKET_SIZE)
    (hlen : payload.length = leToNat lenB) :
    recvFrame (lenB ++ (payload ++ rest)) = .ok (payload, rest) := by
  have htake : (lenB ++ (payload ++ rest)).take 8 = lenB := by
    rw [← h8]; exact List.take_left lenB _
  have hdrop : (lenB ++ (payload ++ rest)).drop 8 = payload ++ rest := by
    rw [← h8]; exact List.drop_left lenB _
  have hlong : ¬ (lenB ++ (payload ++ rest)).length < 8 := by
    simp [List.length_append, h8]
  have htakeP : (payload ++ rest).take (leToNat lenB) = payload := by
    rw [← hlen]; exact List.take_left payload rest
  have hdropP : (payload ++ rest).drop (leToNat lenB) = rest := by
    rw [← hlen]; exact List.drop_left payload rest
  have hfits : ¬ (payload ++ rest).length < leToNat lenB := by
    simp [List.length_append, hlen]
  simp only [recvFrame, htake, hdrop, if_neg hlong, if_neg (not_lt.mpr hmax),
    if_neg hfits, htakeP, hdropP]

theorem recvFrame_oversized (lenB payload : List Nat) (h8 : lenB.length = 8)
    (hbig : MAX_PACKET_SIZE < leToNat lenB) :
    recvFrame (lenB ++ payload) = .error oversizedError := by
  have htake : (lenB ++ payload).take 8 = lenB := by
    rw [← h8]; exact List.take_left lenB _
  have hlong : ¬ (lenB ++ payload).length < 8 := by
    simp [List.length_append, h8]
  simp only [recvFrame, htake, if_neg hlong, if_pos hbig]

theorem leToNat_lt (bs : List Nat) (h : ∀ b ∈ bs, b < 256) :
    leToNat bs < 256 ^ bs.length := by
  induction bs with
  | nil => simp [leToNat]
  | cons b rest ih =>
    have hb : b < 256 := h b (by simp)
    have hr : leToNat rest < 256 ^ rest.length := ih fun x hx => h x (by simp [hx])
    simp only [leToNat, List.length_cons, pow_succ]
    calc b + 256 * leToNat rest
        < 256 + 256 * leToNat rest := by omega
      _ ≤ 256 * 256 ^ rest.length := by omega
      _ = 256 ^ rest.length * 256 := by ring

theorem readerLoopEvents_none {A : Type} (msgs : List A) :
    readerLoopEvents none msgs = msgs.map .message ++ [.disconnect] := by
  induction msgs with
  | nil => rfl
  | cons m rest ih => simp [readerLoopEvents, sinkAccepts, sinkAfter, ih]

theorem connectLoop_mem_attempt (N : Nat) (stopAt connectOk : Nat → Bool) :
    ∀ k fuel, (∀ j, j < N → connectOk (k + j) = false) →
      (∀ j, j ≤ N → stopAt (k + j) = false) → N + 1 ≤ fuel →
      ClientAct.connectAttempt (k + N) ∈
        MessageClient.connectLoop fuel k stopAt connectOk := by
  induction N with
  | zero =>
    intro k fuel _ hstop hfuel
    match fuel, hfuel with
    | fuel + 1, _ =>
      have h0 : stopAt k = false := by simpa using hstop 0 (le_refl 0)
      simp [MessageClient.connectLoop, h0]
  | succ N ih =>
    intro k fuel hok hstop hfuel
    match fuel, hfuel with
    | fuel + 1, hfuel =>
      have h0 : stopAt k = false := by simpa using hstop 0 (Nat.zero_le _)
      have hc : connectOk k = false := by simpa using hok 0 (Nat.succ_pos N)
      have hrec : ClientAct.connectAttempt (k + 1 + N) ∈
          MessageClient.connectLoop fuel (k + 1) stopAt connectOk := by
        refine ih (k + 1) fuel ?_ ?_ (by omega)
        · intro j hj
          have := hok (j + 1) (by omega)
          simpa [Nat.add_assoc, Nat.add_comm 1 j] using this
        · intro j hj
          have := hstop (j + 1) (by omega)
          simpa [Nat.add_assoc, Nat.add_comm 1 j] using this
      have : k + 1 + N = k + (N + 1) := by omega
      rw [this] at hrec
      simp [MessageClient.connectLoop, h0, hc]
      exact hrec

theorem connectLoop_no_sleep (stopAt connectOk : Nat → Bool) :
    ∀ fuel k ms, ClientAct.sleep ms ∉
      MessageClient.connectLoop fuel k stopAt connectOk := by
  intro fuel
  induction fuel with
  | zero => intro k ms; simp [MessageClient.connectLoop]
  | succ fuel ih =>
    intro k ms
    by_cases hs : stopAt k
    · simp [MessageClient.connectLoop, hs]
    · by_cases hc : connectOk k
      · simp [MessageClient.connectLoop, hs, hc]
      · simp [MessageClient.connectLoop, hs, hc]
        exact ih (k + 1) ms

theorem connectLoop_no_fail_log (stopAt connectOk : Nat → Bool) :
    ∀ fuel k n, ClientAct.connectFailLog n ∉
      MessageClient.connectLoop fuel k stopAt connectOk := by
  intro fuel
  induction fuel with
  | zero => intro k n; simp [MessageClient.connectLoop]
  | succ fuel ih =>
    intro k n
    by_cases hs : stopAt k
    · simp [MessageClient.connectLoop, hs]
    · by_cases hc : connectOk k
      · simp [MessageClient.connectLoop, hs, hc]
      · simp [MessageClient.connectLoop, hs, hc]
        exact ih (k + 1) n

/-!
## Claim theorems
-/

/-- C1: `MessageTransporter::recv` reads exactly 8 length bytes first; when
the decoded little-endian length exceeds 16 MiB it fails with the
oversized-message error before reading any payload byte (the result is the
same for any payload content); otherwise it reads exactly that many payload
bytes before deserialization, leaving the remainder of the stream
untouched. -/
theorem recv_frame_size_guard (lenB payload payload' : List Nat)
    (h8 : lenB.length = 8) :
    (MAX_PACKET_SIZE < leToNat lenB →
      recvFrame (lenB ++ payload) = .error oversizedError ∧
      recvFrame (lenB ++ payload) = recvFrame (lenB ++ payload')) ∧
    (leToNat lenB ≤ MAX_PACKET_SIZE → ∀ rest, payload.length = leToNat lenB →
      recvFrame (lenB ++ (payload ++ rest)) = .ok (payload, rest)) := by
  constructor
  · intro hbig
    exact ⟨recvFrame_oversized _ _ h8 hbig,
      (recvFrame_oversized _ _ h8 hbig).trans
        (recvFrame_oversized _ _ h8 hbig).symm⟩
  · intro hmax rest hlen
    exact recvFrame_ok _ _ _ h8 hmax hlen

/-- Witness for C1: the length prefix `[1,0,0,1,0,0,0,0]` decodes to
16777217 = 16 MiB + 1, and the frame is rejected as oversized whatever the
payload. -/
theorem recv_frame_size_guard_witness :
    ([1, 0, 0, 1, 0, 0, 0, 0] : List Nat).length = 8 ∧
    MAX_PACKET_SIZE < leToNat [1, 0, 0, 1, 0, 0, 0, 0] ∧
    recvFrame ([1, 0, 0, 1, 0, 0, 0, 0] ++ [42]) = .error oversizedError :=
  ⟨by decide, by decide,
    ((recv_frame_size_guard [1, 0, 0, 1, 0, 0, 0, 0] [42] []
      (by decide)).1 (by decide)).1⟩

/-- C2 counterexample: after receiving the server's view of its own address
(here 7), the client sends back the connect-target address (here 5) — the
address it believes the *server* is reachable at — not its own
self-reported address. -/
theorem client_handshake_sends_target :
    MessageClient.handshakeTrace 5 (some 7) =
      [.recvAddr, .sendAddr 5, .emitConnect 7] ∧
    firstSentAddr (MessageClient.handshakeTrace 5 (some 7)) = some 5 ∧
    (some 5 : Option SockAddr) ≠ some 7 := by decide

/-- C2 amended: in the client handshake, after a successful connect the
client first receives the server's view of the client's own address, then
sends back the connect-target address (the address the client reached the
server at), and only then emits the `Connect` event. -/
theorem client_handshake_recv_then_send (socket my : SockAddr) :
    MessageClient.handshakeTrace socket (some my) =
      [.recvAddr, .sendAddr socket, .emitConnect my] ∧
    firstSentAddr (MessageClient.handshakeTrace socket (some my)) =
      some socket := by
  exact ⟨rfl, rfl⟩

/-- C3: the typed receives enforce direction: an envelope that narrows to
the wrong direction's subtype makes `ClientsideTransport::recv` /
`ServersideTransport::recv` fail with the protocol-violation error, and a
successful typed receive can only come from an envelope of the expected
subtype — never a silent coercion. -/
theorem directional_recv_rejects_wrong_subtype {C S : Type}
    (c : Codec (Envelope C S)) (stream : List Nat) :
    (∀ (x : C) (rest : List Nat),
      MessageTransporter.recv c stream = .ok (.clientMsg x, rest) →
      ClientsideTransport.recv c stream = .error clientsideDirectionError) ∧
    (∀ (s : S) (rest : List Nat),
      MessageTransporter.recv c stream = .ok (.serverMsg s, rest) →
      ServersideTransport.recv c stream = .error serversideDirectionError) ∧
    (∀ (s : S) (rest : List Nat),
      ClientsideTransport.recv c stream = .ok (s, rest) →
      MessageTransporter.recv c stream = .ok (.serverMsg s, rest)) ∧
    (∀ (x : C) (rest : List Nat),
      ServersideTransport.recv c stream = .ok (x, rest) →
      MessageTransporter.recv c stream = .ok (.clientMsg x, rest)) := by
  refine ⟨?_, ?_, ?_, ?_⟩
  · intro x rest h
    simp [ClientsideTransport.recv, h, Envelope.tryServer]
  · intro s rest h
    simp [ServersideTransport.recv, h, Envelope.tryClient]
  · intro s rest h
    unfold ClientsideTransport.recv at h
    cases hrec : MessageTransporter.recv c stream with
    | error e => rw [hrec] at h; simp at h
    | ok p =>
      obtain ⟨m, rest'⟩ := p
      rw [hrec] at h
      cases m with
      | clientMsg x => simp [Envelope.tryServer] at h
      | serverMsg s' =>
        simp [Envelope.tryServer] at h
        rw [h.1, h.2]
  · intro x rest h
    unfold ServersideTransport.recv at h
    cases hrec : MessageTransporter.recv c stream with
    | error e => rw [hrec] at h; simp at h
    | ok p =>
      obtain ⟨m, rest'⟩ := p
      rw [hrec] at h
      cases m with
      | serverMsg s => simp [Envelope.tryClient] at h
      | clientMsg x' =>
        simp [Envelope.tryClient] at h
        rw [h.1, h.2]

/-- Witness for C3: a concrete client-subtype envelope decoded on the
client side is rejected with the protocol-violation error. -/
theorem directional_recv_rejects_wrong_subtype_witness :
    MessageTransporter.recv unitEnvCodec
        (MessageTransporter.send unitEnvCodec (.clientMsg ())) =
      .ok (Envelope.clientMsg (), []) ∧
    ClientsideTransport.recv unitEnvCodec
        (MessageTransporter.send unitEnvCodec (.clientMsg ())) =
      .error clientsideDirectionError := by
  have h : MessageTransporter.recv unitEnvCodec
      (MessageTransporter.send unitEnvCodec (.clientMsg ())) =
      .ok (Envelope.clientMsg (), []) := by rfl
  exact ⟨h,
    (directional_recv_rejects_wrong_subtype unitEnvCodec _).1 () [] h⟩

/-- C4: decode after encode is the identity — for every envelope value `m`
of a faithful codec whose serialization fits the 16 MiB cap, feeding the
bytes produced by `MessageTransporter::send` to `MessageTransporter::recv`
yields `m` and consumes exactly the frame. -/
theorem send_recv_roundtrip {M : Type} (c : Codec M) (m : M)
    (extra : List Nat) (hrt : ∀ x, c.decode (c.encode x) = some x)
    (hsize : (c.encode m).length ≤ MAX_PACKET_SIZE) :
    MessageTransporter.recv c (MessageTransporter.send c m ++ extra) =
      .ok (m, extra) := by
  have h8 : (natToLe 8 (c.encode m).length).length = 8 := natToLe_length 8 _
  have hlt : (c.encode m).length < 256 ^ 8 :=
    lt_of_le_of_lt hsize (by norm_num [MAX_PACKET_SIZE])
  have hdec : leToNat (natToLe 8 (c.encode m).length) = (c.encode m).length :=
    leToNat_natToLe 8 _ hlt
  unfold MessageTransporter.send MessageTransporter.recv
  rw [List.append_assoc,
    recvFrame_ok _ _ _ h8 (by rw [hdec]; exact hsize) hdec.symm]
  simp [hrt m]

/-- Witness for C4: the boolean codec round-trips through a frame. -/
theorem send_recv_roundtrip_witness :
    (∀ x, boolCodec.decode (boolCodec.encode x) = some x) ∧
    (boolCodec.encode true).length ≤ MAX_PACKET_SIZE ∧
    MessageTransporter.recv boolCodec
      (MessageTransporter.send boolCodec true ++ []) = .ok (true, []) :=
  ⟨by decide, by decide,
    send_recv_roundtrip boolCodec true [] (by decide) (by decide)⟩

/-- C5: with the event-sink consumer alive, one connection delivers exactly
one `Connect`, then one `Message` per decoded payload in order, then
exactly one `Disconnect`, on both the server and the client side. -/
theorem connection_event_ordering {A : Type} (msgs : List A) :
    MessageServer.handleConnection none msgs =
      (.connect :: (msgs.map .message ++ [.disconnect]), .returned) ∧
    MessageClient.handleConnection none msgs =
      (.connect :: (msgs.map .message ++ [.disconnect]), .returned) := by
  constructor <;>
    simp [MessageServer.handleConnection, MessageClient.handleConnection,
      sinkAccepts, sinkAfter, readerLoopEvents_none]

/-- C6 counterexample: when the sink consumer is already gone at `Connect`
delivery, the delivering thread does not treat the failure as a connection
abort — the `.unwrap()` panics it (the server's listener thread, the
client's connection thread). -/
theorem connect_unwrap_panics_on_closed_sink :
    MessageServer.handleConnection (some 0) ([] : List Nat) =
      ([], .panicked) ∧
    MessageClient.handleConnection (some 0) ([] : List Nat) =
      ([], .panicked) ∧
    TaskEnd.panicked ≠ TaskEnd.returned := by decide

/-- C6 amended: once the `Connect` event has been delivered, a failed sink
send of a `Message` or `Disconnect` event is treated as a connection abort:
the reader loop stops, delivers nothing further (a dead sink delivers no
events at all), and the task returns without panicking. -/
theorem reader_sink_failure_graceful {A : Type} (budget : Option Nat)
    (msgs : List A) (h : sinkAccepts budget = true) :
    (MessageServer.handleConnection budget msgs).2 = .returned ∧
    (MessageClient.handleConnection budget msgs).2 = .returned ∧
    readerLoopEvents (some 0) msgs = [] := by
  refine ⟨?_, ?_, ?_⟩
  · simp [MessageServer.handleConnection, h]
  · simp [MessageClient.handleConnection, h]
  · cases msgs <;> simp [readerLoopEvents, sinkAccepts]

/-- Witness for C6 amended: a sink that accepts exactly one send delivers
the `Connect` and the task still returns gracefully. -/
theorem reader_sink_failure_graceful_witness :
    sinkAccepts (some 1) = true ∧
    (MessageServer.handleConnection (some 1) [3]).2 = .returned ∧
    (MessageClient.handleConnection (some 1) [3]).2 = .returned :=
  ⟨by decide,
    (reader_sink_failure_graceful (some 1) [3] (by decide)).1,
    (reader_sink_failure_graceful (some 1) [3] (by decide)).2.1⟩

/-- C7: when the handshake receive fails, the connection is abandoned with
no event of any kind emitted into the sink — no `Connect`, no `Disconnect`
— on both the server and the client side. -/
theorem handshake_failure_emits_no_event (socket target : SockAddr) :
    emittedEvents (MessageServer.handshakeTrace socket none) = [] ∧
    emittedEvents (MessageClient.handshakeTrace target none) = [] :=
  ⟨rfl, rfl⟩

/-- C8 counterexample: connection attempt 0 fails (`connectOk` constantly
false) and no stop signal arrives, yet the loop produces no log action for
the failure — the connect error is discarded silently by the `let _`
binding before the immediate retry, contradicting the claim's "logs the
failure". -/
theorem client_connect_failure_not_logged :
    MessageClient.connectLoop 2 0 (fun _ => false) (fun _ => false) =
      [.checkStop, .connectAttempt 0, .checkStop, .connectAttempt 1] ∧
    ClientAct.connectFailLog 0 ∉
      MessageClient.connectLoop 2 0 (fun _ => false) (fun _ => false) := by
  decide

/-- C8 amended: if the stop signal has not been observed through attempt
index `N` and the first `N` connection attempts fail, the client's outer
loop silently discards each failure (no log action) and reaches attempt
index `N` (its `N+1`-st attempt) with no backoff delay — no iteration ever
performs a sleep. -/
theorem client_reconnect_liveness (N : Nat) (stopAt connectOk : Nat → Bool)
    (hok : ∀ k, k < N → connectOk k = false)
    (hstop : ∀ k, k ≤ N → stopAt k = false) :
    ClientAct.connectAttempt N ∈
      MessageClient.connectLoop (N + 1) 0 stopAt connectOk ∧
    (∀ fuel k ms, ClientAct.sleep ms ∉
      MessageClient.connectLoop fuel k stopAt connectOk) ∧
    (∀ fuel k n, ClientAct.connectFailLog n ∉
      MessageClient.connectLoop fuel k stopAt connectOk) := by
  refine ⟨?_, ?_, ?_⟩
  · have := connectLoop_mem_attempt N stopAt connectOk 0 (N + 1)
      (fun j hj => by simpa using hok j hj)
      (fun j hj => by simpa using hstop j hj) (le_refl _)
    simpa using this
  · intro fuel k ms
    exact connectLoop_no_sleep stopAt connectOk fuel k ms
  · intro fuel k n
    exact connectLoop_no_fail_log stopAt connectOk fuel k n

/-- Witness for C8 amended: two consecutive failures with no stop signal
still lead to a third attempt. -/
theorem client_reconnect_liveness_witness :
    ClientAct.connectAttempt 2 ∈
      MessageClient.connectLoop 3 0 (fun _ => false) (fun _ => false) :=
  (client_reconnect_liveness 2 (fun _ => false) (fun _ => false)
    (fun _ _ => rfl) (fun _ _ => rfl)).1

/-- C9: dropping a `MessageServer` or `MessageClient` handle sends the stop
signal and then joins every background task the handle owns — the tasks
that have exited when the drop trace completes are exactly the owned tasks,
so none is left detached. -/
theorem drop_joins_owned_tasks (t u : Nat) :
    MessageServer.dropTrace ⟨some t⟩ = [.sendStop, .joinTask t] ∧
    exitedTasks (MessageServer.dropTrace ⟨some t⟩) =
      MessageServer.State.ownedTasks ⟨some t⟩ ∧
    MessageClient.dropTrace ⟨some u⟩ = [.sendStop, .joinTask u] ∧
    exitedTasks (MessageClient.dropTrace ⟨some u⟩) =
      MessageClient.State.ownedTasks ⟨some u⟩ := by
  refine ⟨rfl, ?_, rfl, ?_⟩ <;>
    simp [MessageServer.dropTrace, MessageClient.dropTrace, exitedTasks,
      MessageServer.State.ownedTasks, MessageClient.State.ownedTasks]

/-- C10: `MessageTransporter::send` has no size check — a serialization
larger than 16 MiB (still within the 64-bit length field) is framed and
written in full, and the cap is enforced only by `recv` on the receiving
side, which rejects the resulting frame as oversized. -/
theorem send_has_no_size_check {M : Type} (c : Codec M) (m : M)
    (extra : List Nat) (hbig : MAX_PACKET_SIZE < (c.encode m).length)
    (hrep : (c.encode m).length < 2 ^ 64) :
    MessageTransporter.send c m =
      natToLe 8 (c.encode m).length ++ c.encode m ∧
    (MessageTransporter.send c m).length = 8 + (c.encode m).length ∧
    MessageTransporter.recv c (MessageTransporter.send c m ++ extra) =
      .error oversizedError := by
  have h8 : (natToLe 8 (c.encode m).length).length = 8 := natToLe_length 8 _
  have hlt : (c.encode m).length < 256 ^ 8 := by
    have : (256 : Nat) ^ 8 = 2 ^ 64 := by norm_num
    rw [this]; exact hrep
  have hdec : leToNat (natToLe 8 (c.encode m).length) = (c.encode m).length :=
    leToNat_natToLe 8 _ hlt
  refine ⟨rfl, ?_, ?_⟩
  · simp [MessageTransporter.send, List.length_append, h8]
  · unfold MessageTransporter.send MessageTransporter.recv
    rw [List.append_assoc,
      recvFrame_oversized _ _ h8 (by rw [hdec]; exact hbig)]

/-- Witness for C10: a 16 MiB + 1 serialization is sent whole and rejected
by the receiver. -/
theorem send_has_no_size_check_witness :
    MAX_PACKET_SIZE < (oversizedCodec.encode ()).length ∧
    MessageTransporter.recv oversizedCodec
        (MessageTransporter.send oversizedCodec () ++ []) =
      .error oversizedError :=
  ⟨by simp [oversizedCodec],
    (send_has_no_size_check oversizedCodec () []
      (by simp [oversizedCodec])
      (by simp [oversizedCodec]; norm_num [MAX_PACKET_SIZE])).2.2⟩
